import Mathlib

/-!
Verification of the Cardinal ticker plugin (src/plugins/ticker/plugin.py)
against its natural-language specification.

Python floats are modelled as rationals (ℚ); Python dicts (which preserve
insertion order) are modelled as association lists with distinct keys.
-/

namespace Ticker

/-- An EST wall-clock instant, the fields of `datetime.now(tz)` that the
plugin reads: `weekday()` (0 = Monday .. 6 = Sunday), `hour`, `minute`,
`second`. -/
structure ESTTime where
  weekday : ℕ
  hour : ℕ
  minute : ℕ
  second : ℕ
  deriving DecidableEq, Repr

/-- Embeds `get_delta(new_value, old_value)`:
`float(new_value) / float(old_value) * 100 - 100`. -/
def get_delta (new_value old_value : ℚ) : ℚ :=
  new_value / old_value * 100 - 100

/-- The two IRC colors used by `colorize` (`F.C.light_green` / `F.C.light_red`);
the formatted percentage string itself is abstracted away. -/
inductive Color where
  | light_green
  | light_red
  deriving DecidableEq, Repr

/-- Embeds `colorize(percentage)`: light green when `percentage > 0`,
light red otherwise (the `else` branch also catches exactly zero). -/
def colorize (percentage : ℚ) : Color :=
  if percentage > 0 then Color.light_green else Color.light_red

/-- Embeds the `is_market_open` computation of `tick()` (identical to the
module-level `market_is_open()`): open iff it is a weekday and the time is
within 09:30–16:00 per the four-clause closedness test. -/
def is_market_open_at (now : ESTTime) : Bool :=
  !(decide (now.weekday ≥ 5) ||
    (decide (now.hour < 9) || decide (now.hour ≥ 17)) ||
    (now.hour == 9 && decide (now.minute < 30)) ||
    (now.hour == 16 && decide (now.minute > 0)))

/-- Embeds `is_open = now.hour == 9 and now.minute == 30` from `tick()`:
the open-boundary flag. Note the source consults only hour and minute. -/
def is_open_at (now : ESTTime) : Bool :=
  now.hour == 9 && now.minute == 30

/-- Embeds `is_close = now.hour == 16 and now.minute == 0` from `tick()`:
the close-boundary flag. Note the source consults only hour and minute. -/
def is_close_at (now : ESTTime) : Bool :=
  now.hour == 16 && now.minute == 0

/-- Embeds `should_do_predictions` from `tick()`: resolution runs only when
the market is open and the tick is an open or close boundary. -/
def should_do_predictions_at (now : ESTTime) : Bool :=
  is_market_open_at now && (is_open_at now || is_close_at now)

/-- Embeds the delay actually armed by `wait()`:
`minutes_to_sleep = 15 - now.minute % 15` and then
`reactor.callLater(minutes_to_sleep * 60, self.tick)`. The intermediate
`seconds_to_sleep = minutes_to_sleep * 60 - now.second` is computed by the
source but never passed to `callLater`; see `seconds_to_sleep`. -/
def wait_armed_delay (now : ESTTime) : ℕ :=
  (15 - now.minute % 15) * 60

/-- Embeds the `seconds_to_sleep` local of `wait()`, which the source
computes and then discards: `(15 - now.minute % 15) * 60 - now.second`. -/
def seconds_to_sleep (now : ESTTime) : ℤ :=
  ((15 - now.minute % 15) * 60 : ℤ) - now.second

/-- Modelled from the spec's words (for comparison with `wait_armed_delay`):
the exact number of seconds from `now` until the next 15-minute wall-clock
boundary (:00/:15/:30/:45), i.e. until minute `(minute/15 + 1) * 15` with
second 0. -/
def secondsUntilNextBoundary (now : ESTTime) : ℤ :=
  ((now.minute / 15 + 1) * 15 * 60 : ℤ) - (now.minute * 60 + now.second)

/-- A quote as returned by `make_iex_request` when every expected field is
present: `symbol` echo, `price` (latestPrice), `previous close`, and
`change` (changePercent × 100). -/
structure Quote where
  symbol : String
  price : ℚ
  previousClose : ℚ
  change : ℚ
  deriving DecidableEq, Repr

/-- A stored prediction record, the dict written by `save_prediction`:
`when` (a formatted timestamp), `base` and `prediction` prices. -/
structure Prediction where
  timeSet : String
  base : ℚ
  prediction : ℚ
  deriving DecidableEq, Repr

/-- Looks a key up in an association list (first match wins), modelling
Python dict indexing; with distinct keys this agrees with dict semantics. -/
def alookup {α : Type} (s : String) : List (String × α) → Option α
  | [] => none
  | e :: rest => if e.1 = s then some e.2 else alookup s rest

/-- Removes every entry with the given key, modelling Python
`del d[s]`; with distinct keys this agrees with dict semantics. -/
def aremove {α : Type} (s : String) : List (String × α) → List (String × α)
  | [] => []
  | e :: rest => if e.1 = s then aremove s rest else e :: aremove s rest

/-- Python truthiness of an optional float: `None` and `0.0` are falsy. -/
def truthy : Option ℚ → Bool
  | none => false
  | some v => v != 0

/-- Embeds the value computation of `parse_prediction` after the regex
match: `negative` is whether group 3 is `-`, `percentage` is group 4 and
`price` group 5 (each `None` when unmatched). The source tests
`if percentage:` and `elif price:` — Python truthiness, so a matched value
of `0` falls through. On `percentage` truthy it computes
`prediction = percentage * .01 * base` and adds or subtracts it from
`base`; on `price` truthy it returns the price; otherwise it logs
"No price or percentage" and returns `None`. -/
def parse_prediction_value (base : ℚ) (negative : Bool)
    (percentage price : Option ℚ) : Option ℚ :=
  if truthy percentage then
    let prediction := percentage.getD 0 * (0.01 : ℚ) * base
    some (if negative then base - prediction else base + prediction)
  else if truthy price then
    some (price.getD 0)
  else
    none

/-- The running leader state of the closest-guess loop in
`do_predictions`: `closest_prediction`, `closest_delta`, `closest_nick`,
each initialized to `None`. -/
structure ClosestState where
  closest_prediction : Option ℚ
  closest_delta : Option ℚ
  closest_nick : Option String
  deriving DecidableEq, Repr

/-- One iteration of the closest-guess loop of `do_predictions`:
`delta = abs(actual - prediction['prediction'])`, then
`if not closest_delta or delta < closest_delta` — Python truthiness, so
the leader is replaced when there is no leader yet, when the leader's
delta is `0.0` (falsy), or when the new delta is strictly smaller. -/
def closestStep (actual : ℚ) (st : ClosestState)
    (entry : String × Prediction) : ClosestState :=
  let delta := |actual - entry.2.prediction|
  match st.closest_delta with
  | none => ⟨some entry.2.prediction, some delta, some entry.1⟩
  | some d =>
      if d = 0 ∨ delta < d then
        ⟨some entry.2.prediction, some delta, some entry.1⟩
      else
        st

/-- Runs the closest-guess loop of `do_predictions` over a symbol's
snapshot, in the snapshot's (insertion) order. -/
def findClosest (actual : ℚ) (preds : List (String × Prediction)) :
    ClosestState :=
  preds.foldl (closestStep actual) ⟨none, none, none⟩

/-- The per-symbol summary message sent at the end of `do_predictions`'s
symbol loop: closest nick, symbol, number of predictions, the closest
prediction, its percent delta (the argument passed to `colorize`), the
actual price, and its percent delta. -/
structure SummaryMsg where
  nick : String
  symbol : String
  count : ℕ
  prediction : ℚ
  predictionPct : ℚ
  actual : ℚ
  actualPct : ℚ
  deriving DecidableEq, Repr

/-- Embeds the summary message built after the closest-guess loop in
`do_predictions`. The `prediction['base']` used in both `get_delta` calls
is the loop variable left over from the last iteration — the base price of
the last (nick, prediction) pair of the snapshot, not necessarily the
closest-guess submitter's base. On an empty snapshot the Python loop never
binds `prediction` and the formatting raises NameError; the store
invariant (no symbol key with an empty inner mapping) rules that case out,
so it is mapped to `none` here and the theorems assume nonempty entries. -/
def resolveSummary (symbol : String) (actual : ℚ)
    (preds : List (String × Prediction)) : Option SummaryMsg :=
  match preds.getLast? with
  | none => none
  | some last =>
      let cs := findClosest actual preds
      some
        { nick := cs.closest_nick.getD ""
          symbol := symbol
          count := preds.length
          prediction := cs.closest_prediction.getD 0
          predictionPct := get_delta (cs.closest_prediction.getD 0) last.2.base
          actual := actual
          actualPct := get_delta actual last.2.base }

/-- One iteration of `do_predictions`'s symbol loop over the accumulated
(store, emitted summaries) state: a failed fetch (including the
missing-field case, where `data['price']` raises on `None` inside the
`try`) sends an error message and leaves the store untouched (`continue`);
a successful fetch reads and deletes the symbol's predictions from the
store, runs the closest-guess loop, and emits the summary. -/
def predStep (fetch : String → Option Quote)
    (acc : List (String × List (String × Prediction)) × List SummaryMsg)
    (symbol : String) :
    List (String × List (String × Prediction)) × List SummaryMsg :=
  match fetch symbol with
  | none => acc
  | some data =>
      let preds := (alookup symbol acc.1).getD []
      let store' := aremove symbol acc.1
      match resolveSummary symbol data.price preds with
      | none => (store', acc.2)
      | some s => (store', acc.2 ++ [s])

/-- Embeds `do_predictions`: first snapshot the list of predicted symbols
(`predicted_symbols = list(db['predictions'].keys())`), then process each
sequentially with `predStep`, threading the store and collecting the
summary messages. -/
def do_predictions (fetch : String → Option Quote)
    (store : List (String × List (String × Prediction))) :
    List (String × List (String × Prediction)) × List SummaryMsg :=
  (store.map Prod.fst).foldl (predStep fetch) (store, [])

/-- Looking a key up after removing a (possibly different) key. -/
theorem alookup_aremove {α : Type} (s s' : String) (l : List (String × α)) :
    alookup s' (aremove s l) = if s' = s then none else alookup s' l := by
  induction l with
  | nil => simp [aremove, alookup]
  | cons e rest ih =>
      rw [aremove]
      by_cases h1 : e.1 = s
      · rw [if_pos h1, ih]
        by_cases h2 : s' = s
        · rw [if_pos h2, if_pos h2]
        · rw [if_neg h2, if_neg h2, alookup,
            if_neg (fun hc => h2 (by rw [← hc]; exact h1))]
      · rw [if_neg h1, alookup]
        by_cases h3 : e.1 = s'
        · have h2 : ¬(s' = s) := fun hc => h1 (by rw [h3, hc])
          rw [if_pos h3, if_neg h2, alookup, if_pos h3]
        · rw [if_neg h3, ih]
          by_cases h2 : s' = s
          · rw [if_pos h2, if_pos h2]
          · rw [if_neg h2, if_neg h2, alookup, if_neg h3]

/-- A `predStep` whose fetch fails changes nothing. -/
theorem predStep_of_fetch_none (fetch : String → Option Quote)
    (acc : List (String × List (String × Prediction)) × List SummaryMsg)
    (s : String) (h : fetch s = none) : predStep fetch acc s = acc := by
  unfold predStep
  rw [h]

/-- A `predStep` whose fetch succeeds deletes the symbol's entry from the
store (whatever summary it emits). -/
theorem predStep_fst_of_fetch_some (fetch : String → Option Quote)
    (acc : List (String × List (String × Prediction)) × List SummaryMsg)
    (s : String) (data : Quote) (h : fetch s = some data) :
    (predStep fetch acc s).1 = aremove s acc.1 := by
  unfold predStep
  rw [h]
  dsimp only
  split <;> rfl

/-- A successful lookup means the key is among the stored keys. -/
theorem alookup_mem_keys {α : Type} (s : String) (l : List (String × α))
    (v : α) (h : alookup s l = some v) : s ∈ l.map Prod.fst := by
  induction l with
  | nil => simp [alookup] at h
  | cons e rest ih =>
      rw [alookup] at h
      by_cases h1 : e.1 = s
      · simp [h1]
      · rw [if_neg h1] at h
        simpa using Or.inr (ih h)

/-- A `predStep` on a different symbol does not change what a lookup of
this symbol sees in the store. -/
theorem predStep_lookup_ne (fetch : String → Option Quote)
    (acc : List (String × List (String × Prediction)) × List SummaryMsg)
    (s symbol : String) (h : symbol ≠ s) :
    alookup symbol (predStep fetch acc s).1 = alookup symbol acc.1 := by
  cases hq : fetch s with
  | none => rw [predStep_of_fetch_none fetch acc s hq]
  | some data =>
      rw [predStep_fst_of_fetch_some fetch acc s data hq, alookup_aremove,
        if_neg h]

/-- A symbol already absent from the store stays absent through the rest of
the `do_predictions` loop: no step ever adds entries. -/
theorem foldl_predStep_lookup_none (fetch : String → Option Quote)
    (symbol : String) :
    ∀ (syms : List String)
      (acc : List (String × List (String × Prediction)) × List SummaryMsg),
      alookup symbol acc.1 = none →
      alookup symbol ((syms.foldl (predStep fetch) acc).1) = none := by
  intro syms
  induction syms with
  | nil => intro acc h; exact h
  | cons s rest ih =>
      intro acc h
      rw [List.foldl_cons]
      apply ih
      cases hq : fetch s with
      | none => rw [predStep_of_fetch_none fetch acc s hq]; exact h
      | some data =>
          rw [predStep_fst_of_fetch_some fetch acc s data hq, alookup_aremove]
          by_cases hss : symbol = s
          · rw [if_pos hss]
          · rw [if_neg hss]; exact h

/-- A symbol not among the processed symbols keeps its store entry
unchanged through the `do_predictions` loop. -/
theorem foldl_predStep_lookup_not_mem (fetch : String → Option Quote)
    (symbol : String) :
    ∀ (syms : List String)
      (acc : List (String × List (String × Prediction)) × List SummaryMsg),
      symbol ∉ syms →
      alookup symbol ((syms.foldl (predStep fetch) acc).1) =
        alookup symbol acc.1 := by
  intro syms
  induction syms with
  | nil => intro acc _; rfl
  | cons s rest ih =>
      intro acc h
      rw [List.foldl_cons]
      have hne : symbol ≠ s := fun hc => h (by rw [hc]; exact List.mem_cons_self s rest)
      rw [ih _ (fun hc => h (List.mem_cons_of_mem s hc)),
        predStep_lookup_ne fetch acc s symbol hne]

/-- Main loop invariant for C2: a symbol with an outstanding entry, among
distinct processed symbols, ends with its entry untouched when its fetch
fails and with no entry when its fetch succeeds. -/
theorem foldl_predStep_resolves (fetch : String → Option Quote)
    (symbol : String) (preds : List (String × Prediction)) :
    ∀ (syms : List String)
      (acc : List (String × List (String × Prediction)) × List SummaryMsg),
      syms.Nodup → symbol ∈ syms → alookup symbol acc.1 = some preds →
      ((fetch symbol = none →
          alookup symbol ((syms.foldl (predStep fetch) acc).1) = some preds) ∧
       (fetch symbol ≠ none →
          alookup symbol ((syms.foldl (predStep fetch) acc).1) = none)) := by
  intro syms
  induction syms with
  | nil => intro acc _ hmem; exact absurd hmem (List.not_mem_nil symbol)
  | cons s rest ih =>
      intro acc hnd hmem hacc
      have hnd' := List.nodup_cons.mp hnd
      rw [List.foldl_cons]
      by_cases hs : symbol = s
      · subst hs
        constructor
        · intro hf
          rw [predStep_of_fetch_none fetch acc symbol hf,
            foldl_predStep_lookup_not_mem fetch symbol rest acc hnd'.1]
          exact hacc
        · intro hf
          apply foldl_predStep_lookup_none
          cases hq : fetch symbol with
          | none => exact absurd hq hf
          | some data =>
              rw [predStep_fst_of_fetch_some fetch acc symbol data hq,
                alookup_aremove, if_pos rfl]
      · have hmem' : symbol ∈ rest := by
          rcases List.mem_cons.mp hmem with h | h
          · exact absurd h hs
          · exact h
        have hkeep : alookup symbol (predStep fetch acc s).1 = some preds := by
          rw [predStep_lookup_ne fetch acc s symbol hs]; exact hacc
        exact ih _ hnd'.2 hmem' hkeep

/-- A parsed JSON quote body as a partial record: each field that
`make_iex_request` expects may be missing from the response. -/
structure IexResponse where
  symbol : Option String
  latestPrice : Option ℚ
  previousClose : Option ℚ
  changePercent : Option ℚ
  deriving DecidableEq, Repr

/-- The observable outcome of `make_iex_request`: `ok` when every expected
field is present; `noneReturn` when a field is missing — the
`except KeyError` clause only logs, so the decorated deferred fires with
`None`, a normal-looking value; `raised` when the HTTP request or the JSON
parsing raises (network failure, non-JSON error body) — nothing inside
`make_iex_request` catches that, so the failure propagates to the caller. -/
inductive FetchOutcome where
  | ok (q : Quote)
  | noneReturn
  | raised
  deriving DecidableEq, Repr

/-- Embeds `make_iex_request` over its network interaction, taken as
input: `Except.error` when `requests.get` or `r.json()` raises,
`Except.ok` with the parsed partial body otherwise. On a full body it
builds the quote dict (scaling `changePercent` by 100); on a missing field
the `KeyError` is caught, logged, and the function falls off the end. -/
def make_iex_request (resp : Except Unit IexResponse) : FetchOutcome :=
  match resp with
  | .error _ => .raised
  | .ok r =>
      match r.symbol, r.latestPrice, r.previousClose, r.changePercent with
      | some s, some p, some pc, some c => .ok ⟨s, p, pc, c * 100⟩
      | _, _, _, _ => .noneReturn

/-- The observable outcome of the `check` command handler downstream of
the fetch: `replied` — the quote message is sent; `lookupFailed` — the
`except` arm caught a raised fetch and sent "I couldn't look that symbol
up"; `crashed` — the fetch returned `None` and `data['price']`, evaluated
outside the `try`, raises `TypeError`. -/
inductive CheckOutcome where
  | replied (price change : ℚ)
  | lookupFailed
  | crashed
  deriving DecidableEq, Repr

/-- Embeds the fetch handling of the `check` command: its `try` wraps only
`yield self.get_daily(symbol)`; the reply indexes `data` outside it. -/
def check (fetched : FetchOutcome) : CheckOutcome :=
  match fetched with
  | .raised => .lookupFailed
  | .ok q => .replied q.price q.change
  | .noneReturn => .crashed

/-- The state of a twisted `DelayedCall` handle; modelled from the twisted
reactor interface the plugin imports: `cancel()` succeeds on a pending
call, raises `error.AlreadyCancelled` on a cancelled one, and raises
`error.AlreadyCalled` on one that has already fired. -/
inductive TimerState where
  | pending
  | called
  | cancelled
  deriving DecidableEq, Repr

/-- What `DelayedCall.cancel()` does, per timer state. -/
inductive CancelOutcome where
  | ok
  | alreadyCancelled
  | alreadyCalled
  deriving DecidableEq, Repr

/-- Models `DelayedCall.cancel()` from the twisted interface. -/
def cancelTimer : TimerState → CancelOutcome × TimerState
  | .pending => (.ok, .cancelled)
  | .cancelled => (.alreadyCancelled, .cancelled)
  | .called => (.alreadyCalled, .called)

/-- The observable outcome of the plugin's `close`: `noop` when no timer
handle is held, `cancelledTimer` on a successful cancel,
`caughtAlreadyCancelled` when the `except error.AlreadyCancelled` arm
catches and logs, and `raisedAlreadyCalled` when `cancel()` raises
`AlreadyCalled`, which that arm does not catch. -/
inductive CloseOutcome where
  | noop
  | cancelledTimer
  | caughtAlreadyCancelled
  | raisedAlreadyCalled
  deriving DecidableEq, Repr

/-- Embeds `close(cardinal)`: `if self.call_id:` guards a
`self.call_id.cancel()` inside a `try` whose only handler is
`except error.AlreadyCancelled`. -/
def close (call_id : Option TimerState) : CloseOutcome × Option TimerState :=
  match call_id with
  | none => (.noop, none)
  | some st =>
      match cancelTimer st with
      | (.ok, st') => (.cancelledTimer, some st')
      | (.alreadyCancelled, st') => (.caughtAlreadyCancelled, some st')
      | (.alreadyCalled, st') => (.raisedAlreadyCalled, some st')

/-- Updates one key of an association list the way a Python
`dict.update` with a single pair does: replace in place when the key is
present, append otherwise. -/
def dictUpdate {α : Type} (l : List (String × α)) (k : String) (v : α) :
    List (String × α) :=
  match l with
  | [] => [(k, v)]
  | e :: rest => if e.1 = k then (k, v) :: rest else e :: dictUpdate rest k v

/-- The content of one formatted digest line from `format_symbol`: the
configured display name, the bold symbol, and the colorized percent
change (string templating abstracted to the structured entry). -/
structure DigestEntry where
  name : String
  symbol : String
  change : ℚ
  color : Color
  deriving DecidableEq, Repr

/-- Embeds `format_symbol(symbol, change)`: looks the display name up in
the configured stocks and colorizes the change. -/
def format_symbol (stocks : List (String × String)) (symbol : String)
    (change : ℚ) : DigestEntry :=
  ⟨(alookup symbol stocks).getD "", symbol, change, colorize change⟩

/-- One entry of the result-gathering loop of `send_ticker`: a failed
fetch is skipped (`if not success: continue`) — this covers both raised
fetches (the errback re-raises) and the `None` return of a missing-field
response, whose callback `res['symbol']` raises and turns that entry into
a failure — and a successful one updates the `results` dict, keyed by the
response's own symbol echo `res['symbol']`. -/
def tickerStep (fetch : String → Option Quote) (acc : List (String × ℚ))
    (e : String × String) : List (String × ℚ) :=
  match fetch e.1 with
  | none => acc
  | some q => dictUpdate acc q.symbol q.change

/-- Embeds the result-gathering half of `send_ticker`: one fetch per
configured symbol (fanned out concurrently in the source; the
DeferredList yields results in the order the deferreds were created, i.e.
configured order, so settling order is immaterial), folded into the
`results` dict. -/
def ticker_results (fetch : String → Option Quote)
    (stocks : List (String × String)) : List (String × ℚ) :=
  stocks.foldl (tickerStep fetch) []

/-- Embeds `format_ticker(results)`: walk the configured stocks in order,
keep those whose symbol is in `results`, and format each; the final
" | " join over the parts is abstracted to the list of entries. -/
def format_ticker (stocks : List (String × String))
    (results : List (String × ℚ)) : List DigestEntry :=
  stocks.foldl
    (fun parts e =>
      match alookup e.1 results with
      | none => parts
      | some change => parts ++ [format_symbol stocks e.1 change])
    []

/-- Updating a key leaves lookups of other keys unchanged. -/
theorem alookup_dictUpdate_ne {α : Type} (l : List (String × α))
    (k s : String) (v : α) (h : s ≠ k) :
    alookup s (dictUpdate l k v) = alookup s l := by
  induction l with
  | nil => simp [dictUpdate, alookup, Ne.symm h]
  | cons e rest ih =>
      rw [dictUpdate]
      by_cases h1 : e.1 = k
      · rw [if_pos h1, alookup, if_neg (fun hc => h hc.symm), alookup,
          if_neg (by rw [h1]; exact fun hc => h hc.symm)]
      · rw [if_neg h1, alookup, alookup, ih]

/-- Updating a key makes its lookup return the new value. -/
theorem alookup_dictUpdate_self {α : Type} (l : List (String × α))
    (k : String) (v : α) :
    alookup k (dictUpdate l k v) = some v := by
  induction l with
  | nil => simp [dictUpdate, alookup]
  | cons e rest ih =>
      rw [dictUpdate]
      by_cases h1 : e.1 = k
      · rw [if_pos h1, alookup, if_pos rfl]
      · rw [if_neg h1, alookup, if_neg h1, ih]

/-- A `tickerStep` whose fetch fails changes nothing. -/
theorem tickerStep_of_fetch_none (fetch : String → Option Quote)
    (acc : List (String × ℚ)) (e : String × String)
    (h : fetch e.1 = none) : tickerStep fetch acc e = acc := by
  unfold tickerStep
  rw [h]

/-- A `tickerStep` whose fetch succeeds updates the quote's echoed
symbol. -/
theorem tickerStep_of_fetch_some (fetch : String → Option Quote)
    (acc : List (String × ℚ)) (e : String × String) (q : Quote)
    (h : fetch e.1 = some q) :
    tickerStep fetch acc e = dictUpdate acc q.symbol q.change := by
  unfold tickerStep
  rw [h]

/-- The `send_ticker` gathering loop never touches keys outside the
processed symbols (echo-faithful fetches assumed). -/
theorem ticker_results_lookup_not_mem (fetch : String → Option Quote)
    (hecho : ∀ s q, fetch s = some q → q.symbol = s) :
    ∀ (rest : List (String × String)) (acc : List (String × ℚ))
      (s : String), s ∉ rest.map Prod.fst →
      alookup s (rest.foldl (tickerStep fetch) acc) = alookup s acc := by
  intro rest
  induction rest with
  | nil => intro acc s _; rfl
  | cons x rest' ih =>
      intro acc s hs
      have hsx : s ≠ x.1 := fun hc => hs (by rw [hc]; simp)
      have hs' : s ∉ rest'.map Prod.fst := fun hc => hs (by simp [hc])
      rw [List.foldl_cons, ih _ s hs']
      cases hq : fetch x.1 with
      | none => rw [tickerStep_of_fetch_none fetch acc x hq]
      | some q =>
          rw [tickerStep_of_fetch_some fetch acc x q hq, hecho x.1 q hq,
            alookup_dictUpdate_ne _ _ _ _ hsx]

/-- For distinct configured symbols and echo-faithful fetches, the
gathered `results` dict maps each configured symbol to its fetched change
exactly when its fetch succeeded. -/
theorem ticker_results_lookup (fetch : String → Option Quote)
    (hecho : ∀ s q, fetch s = some q → q.symbol = s) :
    ∀ (rest : List (String × String)) (acc : List (String × ℚ)),
      (rest.map Prod.fst).Nodup →
      (∀ e ∈ rest, alookup e.1 acc = none) →
      ∀ e ∈ rest,
        alookup e.1 (rest.foldl (tickerStep fetch) acc) =
          (fetch e.1).map Quote.change := by
  intro rest
  induction rest with
  | nil => intro acc _ _ e he; exact absurd he (List.not_mem_nil e)
  | cons x rest' ih =>
      intro acc hnd hfresh e he
      have hnd2 : (x.1 :: rest'.map Prod.fst).Nodup := by
        simpa only [List.map_cons] using hnd
      have hnd' := List.nodup_cons.mp hnd2
      rw [List.foldl_cons]
      rcases List.mem_cons.mp he with he1 | he2
      · subst he1
        rw [ticker_results_lookup_not_mem fetch hecho rest' _ e.1 hnd'.1]
        cases hq : fetch e.1 with
        | none =>
            rw [tickerStep_of_fetch_none fetch acc e hq, Option.map_none']
            exact hfresh e (List.mem_cons_self _ _)
        | some q =>
            rw [tickerStep_of_fetch_some fetch acc e q hq, hecho e.1 q hq,
              alookup_dictUpdate_self, Option.map_some']
      · have hx1 : ∀ f ∈ rest', alookup f.1 (tickerStep fetch acc x) = none := by
          intro f hf
          have hfx : f.1 ≠ x.1 := by
            intro hc
            exact hnd'.1 (by rw [← hc]; exact List.mem_map_of_mem Prod.fst hf)
          cases hq : fetch x.1 with
          | none =>
              rw [tickerStep_of_fetch_none fetch acc x hq]
              exact hfresh f (List.mem_cons_of_mem x hf)
          | some q =>
              rw [tickerStep_of_fetch_some fetch acc x q hq, hecho x.1 q hq,
                alookup_dictUpdate_ne _ _ _ _ hfx]
              exact hfresh f (List.mem_cons_of_mem x hf)
        exact ih _ hnd'.2 hx1 e he2

/-- Rewrites a `filterMap` under a pointwise-on-members equality. -/
theorem filterMap_congr_mem {α β : Type} (l : List α) (f g : α → Option β)
    (h : ∀ a ∈ l, f a = g a) : l.filterMap f = l.filterMap g := by
  induction l with
  | nil => rfl
  | cons x rest ih =>
      rw [List.filterMap_cons, List.filterMap_cons,
        h x (List.mem_cons_self x rest),
        ih (fun a ha => h a (List.mem_cons_of_mem x ha))]

/-- The `format_ticker` appending loop is a `filterMap` over the
configured stocks. -/
theorem format_ticker_eq_filterMap (stocks : List (String × String))
    (results : List (String × ℚ)) :
    format_ticker stocks results =
      stocks.filterMap
        (fun e => (alookup e.1 results).map (format_symbol stocks e.1)) := by
  unfold format_ticker
  suffices h : ∀ (rest : List (String × String)) (acc : List DigestEntry),
      rest.foldl
        (fun parts e =>
          match alookup e.1 results with
          | none => parts
          | some change => parts ++ [format_symbol stocks e.1 change]) acc =
        acc ++ rest.filterMap
          (fun e => (alookup e.1 results).map (format_symbol stocks e.1)) by
    simpa using h stocks []
  intro rest
  induction rest with
  | nil => intro acc; simp
  | cons x rest' ih =>
      intro acc
      rw [List.foldl_cons, List.filterMap_cons]
      cases hq : alookup x.1 results with
      | none => rw [ih]; simp
      | some change => rw [ih]; simp

/-- C9 counterexample: the claim says a change of exactly zero is colored
green, but `colorize 0` takes the `else` branch and returns light red. -/
theorem C9_zero_is_red : colorize 0 = Color.light_red := by
  simp [colorize]

/-- C9 (amended): the formatted digest entry is colored green exactly when
the percent change is strictly positive, and red when it is zero or
negative. -/
theorem C9_colorize_green_iff_pos (p : ℚ) :
    (colorize p = Color.light_green ↔ 0 < p) ∧
    (colorize p = Color.light_red ↔ p ≤ 0) := by
  unfold colorize
  constructor
  · constructor
    · intro h
      by_contra hneg
      rw [if_neg (by exact fun hc => hneg hc)] at h
      exact Color.noConfusion h
    · intro h
      rw [if_pos h]
  · constructor
    · intro h
      by_contra hneg
      push_neg at hneg
      rw [if_pos hneg] at h
      exact Color.noConfusion h
    · intro h
      rw [if_neg (by exact fun hc => absurd h (not_le.mpr hc))]

/-- C7 counterexample: on a Saturday (weekday 5) at 09:30 the open-boundary
flag is true although it is not a weekday, and at 16:00 the close-boundary
flag is true as well — the source flags consult only hour and minute. -/
theorem C7_saturday_boundary :
    is_open_at ⟨5, 9, 30, 0⟩ = true ∧
    is_close_at ⟨5, 16, 0, 0⟩ = true ∧
    ¬((5 : ℕ) < 5) := by
  refine ⟨rfl, rfl, by omega⟩

/-- C7 (amended): the open-boundary flag is true iff the time is exactly
09:30 and the close-boundary flag is true iff it is exactly 16:00, on any
day of the week (the weekday enters only through the separate market-open
test combined in `should_do_predictions_at`). -/
theorem C7_boundary_iff (t : ESTTime) :
    (is_open_at t = true ↔ t.hour = 9 ∧ t.minute = 30) ∧
    (is_close_at t = true ↔ t.hour = 16 ∧ t.minute = 0) := by
  constructor <;> simp [is_open_at, is_close_at]

/-- C3 counterexample: at 09:47:00 the armed delay is 780 seconds, firing at
10:00:00 — not 180 seconds (09:50) as the claim's example demands; and at
09:47:30 the armed delay is still 780 seconds while the exact time to the
next boundary is 750 seconds, so the armed delay is not exactly the seconds
until the next boundary. -/
theorem C3_armed_delay_counterexample :
    wait_armed_delay ⟨2, 9, 47, 0⟩ = 780 ∧
    (780 : ℕ) ≠ 180 ∧
    wait_armed_delay ⟨2, 9, 47, 30⟩ = 780 ∧
    secondsUntilNextBoundary ⟨2, 9, 47, 30⟩ = 750 ∧
    (780 : ℤ) ≠ 750 := by
  refine ⟨rfl, by omega, rfl, rfl, by omega⟩

/-- C3 (amended): the armed delay is `(15 - minute % 15) * 60` seconds —
the time to the next 15-minute boundary measured from the top of the
current minute; it exceeds the exact seconds-to-boundary by the current
second, because the computed `seconds_to_sleep` adjustment is discarded.
In particular starting at 09:47:00 arms the next fire for 10:00, not 09:50. -/
theorem C3_armed_delay_eq (now : ESTTime) :
    (wait_armed_delay now : ℤ) = secondsUntilNextBoundary now + now.second ∧
    (wait_armed_delay now : ℤ) = seconds_to_sleep now + now.second := by
  have hlt : now.minute % 15 < 15 := Nat.mod_lt _ (by omega)
  have hdm : 15 * (now.minute / 15) + now.minute % 15 = now.minute :=
    Nat.div_add_mod now.minute 15
  unfold wait_armed_delay secondsUntilNextBoundary seconds_to_sleep
  push_cast [Nat.sub_mul]
  constructor <;> [skip; ring_nf] <;> omega

/-- C6 counterexample: a matched percentage of exactly `0` (e.g.
`!predict AAPL +0%`) is falsy under `if percentage:`, so no prediction is
produced at all — the claim demands a stored predicted price of
`base + 0/100 * base = base`. -/
theorem C6_zero_percent_counterexample :
    parse_prediction_value 100 false (some 0) none = none ∧
    (none : Option ℚ) ≠ some 100 := by
  refine ⟨rfl, by simp⟩

/-- C6 (amended): for every matched nonzero percentage the computed
predicted price equals `base + percentage/100 * base` for a positive
direction and `base - percentage/100 * base` for a negative one; a matched
percentage of zero is treated as absent and yields no prediction. -/
theorem C6_percentage_formula (base pct : ℚ) (negative : Bool)
    (h : pct ≠ 0) :
    parse_prediction_value base negative (some pct) none =
      some (if negative then base - pct / 100 * base
            else base + pct / 100 * base) := by
  have hd : pct * (0.01 : ℚ) * base = pct / 100 * base := by ring
  cases negative <;>
    simp [parse_prediction_value, truthy, h, hd]

/-- C6 witness: a +5% prediction on a base of 200 stores 210. -/
theorem C6_percentage_formula_witness :
    parse_prediction_value 200 false (some 5) none = some 210 := by
  have h := C6_percentage_formula 200 5 false (by norm_num)
  norm_num at h
  exact h

/-- C1 (code behavior at the failing input): with actual price 100 and the
snapshot `[(u1, predicted 100), (u2, predicted 105)]`, u1's delta is 0 —
strictly smaller than u2's delta 5 — yet the loop names u2 the closest
guess, because `if not closest_delta or ...` treats u1's leading delta of
`0.0` as falsy and lets u2 replace the leader. -/
theorem C1_zero_delta_leader_replaced :
    ClosestState.closest_nick
        (findClosest 100 [("u1", ⟨"t1", 100, 100⟩), ("u2", ⟨"t2", 100, 105⟩)])
      = some "u2" ∧
    |(100 : ℚ) - 100| < |(100 : ℚ) - 105| := by
  constructor
  · norm_num [findClosest, closestStep]
  · norm_num

/-- C2: after a resolution round, a symbol with at least one outstanding
prediction keeps its store entry untouched when its quote fetch failed,
and has no store entry when the fetch succeeded. Hypotheses: the store
keys are distinct and no entry is empty (the store invariant — Python
dicts guarantee the former, `save_prediction` the latter; an empty entry
would make the Python summary formatting raise). -/
theorem C2_resolution_drains_iff_fetch_ok (fetch : String → Option Quote)
    (store : List (String × List (String × Prediction)))
    (symbol : String) (preds : List (String × Prediction))
    (hwf : ∀ e ∈ store, e.2 ≠ ([] : List (String × Prediction)))
    (hnd : (store.map Prod.fst).Nodup)
    (hsym : alookup symbol store = some preds) :
    (fetch symbol = none →
       alookup symbol (do_predictions fetch store).1 = some preds) ∧
    (∀ q, fetch symbol = some q →
       alookup symbol (do_predictions fetch store).1 = none) := by
  have hmem : symbol ∈ store.map Prod.fst := alookup_mem_keys symbol store preds hsym
  have h := foldl_predStep_resolves fetch symbol preds (store.map Prod.fst)
    (store, []) hnd hmem hsym
  exact ⟨h.1, fun q hq => h.2 (by rw [hq]; exact fun hc => Option.noConfusion hc)⟩

/-- C2 witness: with a single outstanding prediction for AAA, a successful
fetch drains AAA's entry and a failed fetch leaves it untouched. -/
theorem C2_resolution_drains_iff_fetch_ok_witness :
    alookup "AAA"
      (do_predictions (fun s => if s = "AAA" then some ⟨"AAA", 100, 95, 2⟩ else none)
        [("AAA", [("u1", ⟨"t", 100, 105⟩)])]).1 = none ∧
    alookup "AAA"
      (do_predictions (fun _ => none)
        [("AAA", [("u1", ⟨"t", 100, 105⟩)])]).1 =
      some [("u1", ⟨"t", 100, 105⟩)] :=
  ⟨(C2_resolution_drains_iff_fetch_ok
      (fun s => if s = "AAA" then some ⟨"AAA", 100, 95, 2⟩ else none)
      [("AAA", [("u1", ⟨"t", 100, 105⟩)])] "AAA" [("u1", ⟨"t", 100, 105⟩)]
      (by simp) (by simp) (by simp [alookup])).2
      ⟨"AAA", 100, 95, 2⟩ (by simp),
   (C2_resolution_drains_iff_fetch_ok (fun _ => none)
      [("AAA", [("u1", ⟨"t", 100, 105⟩)])] "AAA" [("u1", ⟨"t", 100, 105⟩)]
      (by simp) (by simp) (by simp [alookup])).1 rfl⟩

/-- C10: the percent deltas in the per-symbol summary — for the closest
prediction and for the actual price — are both computed against the base
price of the last (submitter, prediction) pair of the snapshot, which need
not be the closest-guess submitter's own base price. -/
theorem C10_summary_pct_uses_last_base (symbol : String) (actual : ℚ)
    (preds : List (String × Prediction)) (last : String × Prediction)
    (h : preds.getLast? = some last) :
    ∃ s, resolveSummary symbol actual preds = some s ∧
      s.predictionPct = get_delta s.prediction last.2.base ∧
      s.actualPct = get_delta actual last.2.base := by
  unfold resolveSummary
  rw [h]
  exact ⟨_, rfl, rfl, rfl⟩

/-- C10 witness: closest guess u1 has base 50, but the summary's deltas are
computed against 80 — the base of the last pair, u2. -/
theorem C10_summary_pct_uses_last_base_witness :
    (∃ s, resolveSummary "AAA" 100
        [("u1", ⟨"w1", 50, 99⟩), ("u2", ⟨"w2", 80, 200⟩)] = some s ∧
      s.predictionPct = get_delta s.prediction 80 ∧
      s.actualPct = get_delta 100 80) ∧
    ClosestState.closest_nick
        (findClosest 100 [("u1", ⟨"w1", 50, 99⟩), ("u2", ⟨"w2", 80, 200⟩)])
      = some "u1" ∧
    ((50 : ℚ) ≠ 80) :=
  ⟨C10_summary_pct_uses_last_base "AAA" 100
      [("u1", ⟨"w1", 50, 99⟩), ("u2", ⟨"w2", 80, 200⟩)]
      ("u2", ⟨"w2", 80, 200⟩) rfl,
   by norm_num [findClosest, closestStep],
   by norm_num⟩

/-- C4 counterexample: a 200-JSON response missing `latestPrice` is not
signaled as an error — `make_iex_request` swallows the `KeyError` and
returns `None`, a normal-looking value — and the `check` caller then
crashes indexing it outside its `try`. -/
theorem C4_missing_field_counterexample :
    make_iex_request (Except.ok ⟨some "AAA", none, some 95, some 2⟩) =
      FetchOutcome.noneReturn ∧
    check (make_iex_request (Except.ok ⟨some "AAA", none, some 95, some 2⟩)) =
      CheckOutcome.crashed :=
  ⟨rfl, rfl⟩

/-- C4 (amended): a raised fetch (network failure, non-JSON body) is
normalized by the caller's `except` arm — `check` reports the lookup
failure and does not crash; but a parsed response missing an expected
field makes `make_iex_request` return `None`, and `check` crashes on it:
`check` crashes exactly on the missing-field responses. -/
theorem C4_error_normalization (resp : Except Unit IexResponse) :
    (∀ e, resp = Except.error e →
       check (make_iex_request resp) = CheckOutcome.lookupFailed) ∧
    (check (make_iex_request resp) = CheckOutcome.crashed ↔
       ∃ r, resp = Except.ok r ∧
         (r.symbol = none ∨ r.latestPrice = none ∨
          r.previousClose = none ∨ r.changePercent = none)) := by
  cases resp with
  | error e => simp [make_iex_request, check]
  | ok r =>
      constructor
      · intro e he
        exact absurd he (by simp)
      · obtain ⟨s, p, pc, c⟩ := r
        cases s <;> cases p <;> cases pc <;> cases c <;>
          simp [make_iex_request, check]

/-- C4 witness: a network error yields the lookup-failed reply, and a body
missing `latestPrice` crashes `check`. -/
theorem C4_error_normalization_witness :
    check (make_iex_request (Except.error ())) = CheckOutcome.lookupFailed ∧
    check (make_iex_request (Except.ok ⟨some "BBB", none, some 95, some 2⟩)) =
      CheckOutcome.crashed :=
  ⟨(C4_error_normalization (Except.error ())).1 () rfl,
   (C4_error_normalization (Except.ok ⟨some "BBB", none, some 95, some 2⟩)).2.mpr
     ⟨⟨some "BBB", none, some 95, some 2⟩, rfl, Or.inr (Or.inl rfl)⟩⟩

/-- C8 counterexample: calling `close` while the held timer has already
fired raises `AlreadyCalled` — the `except` arm catches only
`AlreadyCancelled` — so stop on an already-fired timer is not a no-op. -/
theorem C8_close_called_raises :
    (close (some TimerState.called)).1 = CloseOutcome.raisedAlreadyCalled :=
  rfl

/-- C8 (amended): `close` cancels a pending timer; calling it with an
already-cancelled timer, or with no timer armed, does not raise; and it
raises exactly when the held timer has already fired (a state `tick()`'s
re-arm-first ordering never exposes to other code). -/
theorem C8_close_behavior :
    close (some TimerState.pending) =
      (CloseOutcome.cancelledTimer, some TimerState.cancelled) ∧
    (close (some TimerState.cancelled)).1 = CloseOutcome.caughtAlreadyCancelled ∧
    (close none).1 = CloseOutcome.noop ∧
    (∀ st, (close (some st)).1 = CloseOutcome.raisedAlreadyCalled ↔
       st = TimerState.called) := by
  refine ⟨rfl, rfl, rfl, ?_⟩
  intro st
  cases st <;> simp [close, cancelTimer]

/-- C5: over the configured symbol set — distinct symbols, and the quote
source echoing the requested symbol back — the digest built by a
broadcast tick contains exactly the symbols whose fetch succeeded, each
formatted with its fetched change, in configured order; failed symbols
are silently dropped. Totality of the embedded functions reflects that
the broadcast does not raise on partial failure. -/
theorem C5_digest_partial_failure (fetch : String → Option Quote)
    (stocks : List (String × String))
    (hecho : ∀ s q, fetch s = some q → q.symbol = s)
    (hnd : (stocks.map Prod.fst).Nodup) :
    format_ticker stocks (ticker_results fetch stocks) =
      stocks.filterMap
        (fun e => (fetch e.1).map (fun q => format_symbol stocks e.1 q.change)) := by
  rw [format_ticker_eq_filterMap]
  apply filterMap_congr_mem
  intro e he
  unfold ticker_results
  rw [ticker_results_lookup fetch hecho stocks [] hnd (fun f _ => rfl) e he]
  cases fetch e.1 <;> rfl

/-- C5 witness: with AAA failing and BBB succeeding (+5% change), the
digest holds exactly BBB's entry, colored green. -/
theorem C5_digest_partial_failure_witness :
    format_ticker [("AAA", "Apple"), ("BBB", "Bravo")]
      (ticker_results
        (fun s => if s = "BBB" then some ⟨"BBB", 10, 9, 5⟩ else none)
        [("AAA", "Apple"), ("BBB", "Bravo")]) =
      [⟨"Bravo", "BBB", 5, Color.light_green⟩] := by
  rw [C5_digest_partial_failure
      (fun s => if s = "BBB" then some ⟨"BBB", 10, 9, 5⟩ else none)
      [("AAA", "Apple"), ("BBB", "Bravo")]
      (by
        intro s q h
        dsimp only at h
        by_cases hs : s = "BBB"
        · rw [if_pos hs] at h
          injection h with h2
          rw [← h2, hs]
        · rw [if_neg hs] at h
          exact Option.noConfusion h)
      (by simp)]
  decide

end Ticker
